import Mathlib

/- Verification of the match-sorter rewrite (src/unnamed/part_000).

   Strings are modelled as lists of characters.  The scoring cascade of
   getMatchRanking builds JavaScript regular expressions by string
   concatenation and runs them with test/exec; we embed that faithfully:
   a small regex AST, a recursive-descent parser for the pattern subset the
   program can construct (literals, escapes, \s, ., ^, $, alternation,
   capture and non-capture groups, *, +, ?), and a backtracking matcher with
   leftmost-match exec semantics, greedy quantifiers and capture recording.
   Pattern-construction failure (JavaScript RegExp throwing on a malformed
   pattern) is modelled as Except.error.  Case-insensitive matching is
   modelled by ASCII case folding, and JavaScript numbers used for rankings
   are modelled as integers extended with the two infinities (JNum);
   closeness ratios are rationals. -/

set_option maxRecDepth 4000

abbrev Str := List Char

deriving instance DecidableEq for Except

namespace MatchSorter

/-- JavaScript numbers as used for rankings: integers together with
Infinity and -Infinity (the defaults of maxRanking / minRanking). -/
inductive JNum where
  | negInf
  | fin (n : Int)
  | posInf
deriving DecidableEq, Repr

/-- Strict less-than on JNum, as JavaScript compares these values. -/
def JNum.ltB : JNum → JNum → Bool
  | .negInf, .negInf => false
  | .negInf, _ => true
  | .fin a, .fin b => a < b
  | .fin _, .posInf => true
  | .fin _, .negInf => false
  | .posInf, _ => false

/-- Greater-or-equal on JNum (no NaN arises in the embedded program). -/
def JNum.geB (a b : JNum) : Bool := !(JNum.ltB a b)

/-- Math.min on JNum. -/
def JNum.minJ (a b : JNum) : JNum := if JNum.ltB b a then b else a

namespace rankings

def CASE_SENSITIVE_EQUAL : Int := 7

def EQUAL : Int := 6

def STARTS_WITH : Int := 5

def WORD_STARTS_WITH : Int := 4

def CONTAINS : Int := 3

def ACRONYM : Int := 2

def MATCHES : Int := 1

def NO_MATCH : Int := 0

end rankings

/-- Regex abstract syntax for the pattern subset the program constructs. -/
inductive RE where
  | eps
  | char (c : Char)
  | any
  | ws
  | start
  | stop
  | seq (a b : RE)
  | alt (a b : RE)
  | star (a : RE)
  | opt (a : RE)
  | group (n : Nat) (a : RE)
deriving DecidableEq, Repr

/-- ASCII case folding, standing in for the case-insensitive flag. -/
def asciiLower (c : Char) : Char :=
  if 'A' ≤ c ∧ c ≤ 'Z' then Char.ofNat (c.toNat + 32) else c

/-- Character comparison under an optional ignore-case flag. -/
def charEq (ci : Bool) (p c : Char) : Bool :=
  if ci then asciiLower p = asciiLower c else p = c

/-- JavaScript \s whitespace class (WhiteSpace and LineTerminator code points). -/
def jsWhitespace (c : Char) : Bool :=
  c.toNat ∈ ([0x9, 0xa, 0xb, 0xc, 0xd, 0x20, 0xa0, 0x1680,
    0x2000, 0x2001, 0x2002, 0x2003, 0x2004, 0x2005, 0x2006, 0x2007,
    0x2008, 0x2009, 0x200a, 0x2028, 0x2029, 0x202f, 0x205f, 0x3000,
    0xfeff] : List Nat)

/-- JavaScript line terminators, which the dot does not match. -/
def lineTerminator (c : Char) : Bool :=
  c.toNat ∈ ([0xa, 0xd, 0x2028, 0x2029] : List Nat)

/-- Recorded capture spans: (group number, start position, end position),
most recent first, as JavaScript keeps the last successful capture. -/
abbrev Caps := List (Nat × Nat × Nat)

/-- Length of the text captured by group i (0 when the group is absent). -/
def capLen (caps : Caps) (i : Nat) : Nat :=
  match caps.find? (fun e => e.1 == i) with
  | some (_, a, b) => b - a
  | none => 0

/-- Greedy iteration of a star: try one more iteration of the body first,
falling back to stopping here; an iteration that consumes nothing ends the
loop, as in the JavaScript repeat matcher.  The body of the star is passed
as a function so that the fuel (at most length+1 consuming iterations fit
in the remaining subject) is the only recursion. -/
def starLoop (body : Nat → Str → Caps → (Nat → Str → Caps → Option (Nat × Caps)) → Option (Nat × Caps)) :
    Nat → Nat → Str → Caps → (Nat → Str → Caps → Option (Nat × Caps)) → Option (Nat × Caps)
  | 0, pos, rem, caps, k => k pos rem caps
  | fuel + 1, pos, rem, caps, k =>
    match body pos rem caps
        (fun p r c => if p == pos then k p r c else starLoop body fuel p r c k) with
    | some res => some res
    | none => k pos rem caps

/-- Backtracking matcher in continuation style: match re at absolute
position pos of the subject, of which rem is the suffix from pos on (so
the end-of-subject anchor holds exactly when rem is empty), calling k
with the end position, its suffix and the captures on each candidate
match; alternation tries the left branch first and quantifiers are
greedy, giving the JavaScript backtracking order. -/
def reMatch (ci : Bool) : RE → Nat → Str → Caps → (Nat → Str → Caps → Option (Nat × Caps)) → Option (Nat × Caps)
  | .eps, pos, rem, caps, k => k pos rem caps
  | .char c, pos, rem, caps, k =>
    match rem with
    | d :: rem2 => if charEq ci c d then k (pos + 1) rem2 caps else none
    | [] => none
  | .any, pos, rem, caps, k =>
    match rem with
    | d :: rem2 => if lineTerminator d then none else k (pos + 1) rem2 caps
    | [] => none
  | .ws, pos, rem, caps, k =>
    match rem with
    | d :: rem2 => if jsWhitespace d then k (pos + 1) rem2 caps else none
    | [] => none
  | .start, pos, rem, caps, k => if pos == 0 then k pos rem caps else none
  | .stop, pos, rem, caps, k => if rem.isEmpty then k pos rem caps else none
  | .seq a b, pos, rem, caps, k =>
    reMatch ci a pos rem caps (fun p r c => reMatch ci b p r c k)
  | .alt a b, pos, rem, caps, k =>
    match reMatch ci a pos rem caps k with
    | some res => some res
    | none => reMatch ci b pos rem caps k
  | .opt a, pos, rem, caps, k =>
    match reMatch ci a pos rem caps k with
    | some res => some res
    | none => k pos rem caps
  | .star a, pos, rem, caps, k =>
    starLoop (fun p r c k2 => reMatch ci a p r c k2) (rem.length + 1) pos rem caps k
  | .group n a, pos, rem, caps, k =>
    reMatch ci a pos rem caps (fun p r c => k p r ((n, pos, p) :: c))

/-- Leftmost-match search: try match start positions p, p+1, ... with rem
the subject suffix from p (fuel bounds the number of start positions, one
per suffix including the empty one) and return (start, end, captures) of
the first match found, like RegExp.exec. -/
def reExecFrom (re : RE) (ci : Bool) : Nat → Nat → Str → Option (Nat × Nat × Caps)
  | 0, _, _ => none
  | fuel + 1, p, rem =>
    match reMatch ci re p rem [] (fun e _ c => some (e, c)) with
    | some (e, c) => some (p, e, c)
    | none =>
      match rem with
      | [] => none
      | _ :: rem2 => reExecFrom re ci fuel (p + 1) rem2

/-- exec over subject s starting the search at position p0. -/
def reExec (re : RE) (ci : Bool) (s : Str) (p0 : Nat) : Option (Nat × Nat × Caps) :=
  reExecFrom re ci (s.length + 1 - p0) p0 (s.drop p0)

/-- RegExp.test. -/
def testRe (re : RE) (ci : Bool) (s : Str) : Bool := (reExec re ci s 0).isSome

/-- Worker for global replace: emit the text from pos on, replacing every
match of re by repl; after a zero-width match the following character is
kept and the scan resumes one position later (lastIndex advance). -/
def replaceGo (re : RE) (s repl : Str) : Nat → Nat → Str
  | 0, pos => s.drop pos
  | fuel + 1, pos =>
    match reExec re false s pos with
    | none => s.drop pos
    | some (ms, me, _) =>
      ((s.drop pos).take (ms - pos)) ++ repl ++
        (if me == ms then
          match s.get? ms with
          | some c => c :: replaceGo re s repl fuel (ms + 1)
          | none => []
        else replaceGo re s repl fuel me)

/-- String.prototype.replace with a global (not ignore-case) regex. -/
def replaceAll (re : RE) (s repl : Str) : Str :=
  replaceGo re s repl (s.length + 1) 0

/-- Fold a parsed atom list into a sequence. -/
def mkSeq : List RE → RE
  | [] => .eps
  | [a] => a
  | a :: rest => .seq a (mkSeq rest)

mutual

/-- Parse an alternation (seq, or seq-pipe-alternation); fuel bounds the
descent, group numbers are threaded in opening-parenthesis order as
JavaScript numbers capture groups.  Returns the node, the unconsumed
input and the next group number, or none on a syntax error (which the
embedded program observes as RegExp construction throwing). -/
def parseAlt : Nat → Str → Nat → Option (RE × Str × Nat)
  | 0, _, _ => none
  | fuel + 1, s, gn =>
    match parseSeqItems fuel [] s gn with
    | none => none
    | some (a, rest, gn2) =>
      match rest with
      | '|' :: rest2 =>
        match parseAlt fuel rest2 gn2 with
        | none => none
        | some (b, rest3, gn3) => some (.alt a b, rest3, gn3)
      | _ => some (a, rest, gn2)

/-- Parse a run of atoms with their postfix quantifiers, stopping before
a pipe, a closing parenthesis or the end; a quantifier with no preceding
atom is a syntax error (nothing to repeat). -/
def parseSeqItems : Nat → List RE → Str → Nat → Option (RE × Str × Nat)
  | 0, _, _, _ => none
  | fuel + 1, acc, s, gn =>
    match s with
    | [] => some (mkSeq acc.reverse, [], gn)
    | ')' :: _ => some (mkSeq acc.reverse, s, gn)
    | '|' :: _ => some (mkSeq acc.reverse, s, gn)
    | '*' :: rest =>
      match acc with
      | [] => none
      | a :: tl => parseSeqItems fuel (.star a :: tl) rest gn
    | '+' :: rest =>
      match acc with
      | [] => none
      | a :: tl => parseSeqItems fuel (.seq a (.star a) :: tl) rest gn
    | '?' :: rest =>
      match acc with
      | [] => none
      | a :: tl => parseSeqItems fuel (.opt a :: tl) rest gn
    | _ =>
      match parseAtom fuel s gn with
      | none => none
      | some (a, rest2, gn2) => parseSeqItems fuel (a :: acc) rest2 gn2

/-- Parse one atom: a group, an escape, dot, an anchor or a literal
character.  Character classes are outside the modelled subset and are
reported as a syntax error. -/
def parseAtom : Nat → Str → Nat → Option (RE × Str × Nat)
  | 0, _, _ => none
  | fuel + 1, s, gn =>
    match s with
    | '(' :: '?' :: ':' :: rest =>
      match parseAlt fuel rest gn with
      | some (a, ')' :: rest2, gn2) => some (a, rest2, gn2)
      | _ => none
    | '(' :: rest =>
      match parseAlt fuel rest (gn + 1) with
      | some (a, ')' :: rest2, gn2) => some (.group gn a, rest2, gn2)
      | _ => none
    | '\\' :: 's' :: rest => some (.ws, rest, gn)
    | '\\' :: c :: rest => some (.char c, rest, gn)
    | ['\\'] => none
    | '.' :: rest => some (.any, rest, gn)
    | '^' :: rest => some (.start, rest, gn)
    | '$' :: rest => some (.stop, rest, gn)
    | '[' :: _ => none
    | c :: rest => some (.char c, rest, gn)
    | [] => none

end

/-- Compile a whole pattern string; leftover input (such as an unmatched
closing parenthesis) is a syntax error. -/
def parsePattern (s : Str) : Option RE :=
  match parseAlt (8 * s.length + 32) s 1 with
  | some (re, [], _) => some re
  | _ => none

/-- The similarCharacters table (source lines 134-199): one pattern per
line of the template literal, split on newlines; the first entry is the
two-character string backslash-s. -/
def similarCharacters : List Str :=
  [
    "\\s".toList,
    "(?:AE|Æ|Ǽ)".toList,
    "(?:ae|æ|ǽ)".toList,
    "(?:IJ|Ĳ)".toList,
    "(?:ij|ĳ)".toList,
    "(?:OE|Œ)".toList,
    "(?:oe|œ)".toList,
    "(?:TH|Þ)".toList,
    "(?:th|þ)".toList,
    "(?:A|À|Á|Â|Ã|Ä|Å|Ấ|Ắ|Ẳ|Ẵ|Ặ|Ầ|Ằ|Ȃ|Ā|Ă|Ą|Ǎ|Ǻ|A|Ȁ|A)".toList,
    "(?:C|Ç|Ḉ|Ć|Ĉ|Ċ|Č|C|Č)".toList,
    "(?:E|È|É|Ê|Ë|Ế|Ḗ|Ề|Ḕ|Ḝ|Ȇ|Ē|Ĕ|Ė|Ę|Ě|E|Ȅ|Ê|Ȩ|Ɛ)".toList,
    "(?:I|Ì|Í|Î|Ï|Ḯ|Ȋ|Ĩ|Ī|Ĭ|Į|İ|Ǐ|I|Ȉ|I|Ɨ)".toList,
    "(?:D|Ð|Ď|Đ|Ḑ)".toList,
    "(?:N|Ñ|Ń|Ņ|Ň|N|Ǹ)".toList,
    "(?:O|Ò|Ó|Ô|Õ|Ö|Ø|Ố|Ṍ|Ṓ|Ȏ|Ō|Ŏ|Ő|Ơ|Ǒ|Ǿ|Ồ|Ṑ|Ȍ|O)".toList,
    "(?:U|Ù|Ú|Û|Ü|Ũ|Ū|Ŭ|Ů|Ű|Ų|Ȗ|Ư|Ǔ|Ǖ|Ǘ|Ǚ|Ǜ|Ứ|Ṹ|Ừ|Ȕ|U)".toList,
    "(?:Y|Ý|Ŷ|Ÿ|Y|Ỳ|Y)".toList,
    "(?:a|à|á|â|ã|ä|å|ấ|ắ|ẳ|ẵ|ặ|ầ|ằ|ȃ|ā|ă|ą|ǎ|ǻ|a|ȁ|a)".toList,
    "(?:c|ç|ḉ|ć|ĉ|ċ|č|c|č)".toList,
    "(?:e|è|é|ê|ë|ế|ḗ|ề|ḕ|ḝ|ȇ|ē|ĕ|ė|ę|ě|e|ȅ|ê|ȩ|ɛ)".toList,
    "(?:i|ì|í|î|ï|ḯ|ȋ|ĩ|ī|ĭ|į|ı|ǐ|i|ȉ|i|ɨ)".toList,
    "(?:d|ð|ď|đ|ḑ)".toList,
    "(?:n|ñ|ń|ņ|ň|ŉ|n|ǹ)".toList,
    "(?:o|ò|ó|ô|õ|ö|ø|ố|ṍ|ṓ|ȏ|ō|ŏ|ő|ơ|ǒ|ǿ|ồ|ṑ|ȍ|o)".toList,
    "(?:u|ù|ú|û|ü|ũ|ū|ŭ|ů|ű|ų|ȗ|ư|ǔ|ǖ|ǘ|ǚ|ǜ|ứ|ṹ|ừ|ȕ|u)".toList,
    "(?:y|ý|ÿ|ŷ|y|ỳ|y)".toList,
    "(?:G|Ĝ|Ǵ|Ğ|Ġ|Ģ|Ǧ)".toList,
    "(?:g|ĝ|ǵ|ğ|ġ|ģ|ǧ)".toList,
    "(?:H|Ĥ|Ħ|Ḫ|Ȟ|Ḩ)".toList,
    "(?:h|ĥ|ħ|ḫ|ȟ|ḩ)".toList,
    "(?:J|Ĵ|J)".toList,
    "(?:j|ĵ|ǰ)".toList,
    "(?:K|Ķ|Ḱ|K|Ǩ)".toList,
    "(?:k|ķ|ḱ|k|ǩ)".toList,
    "(?:L|Ĺ|Ļ|Ľ|Ŀ)".toList,
    "(?:l|ĺ|ļ|ľ|ŀ|Ł|ł)".toList,
    "(?:M|Ḿ|M|M|M)".toList,
    "(?:m|ḿ|m|m|m)".toList,
    "(?:P|P|Ṕ|P)".toList,
    "(?:p|p|ṕ|p)".toList,
    "(?:R|Ŕ|Ŗ|Ř|R|Ȓ|Ȑ|Ř)".toList,
    "(?:r|ŕ|ŗ|ř|r|ȓ|ȑ|ř)".toList,
    "(?:S|Ś|Ŝ|Ş|Ș|Š|Ṥ|Ṧ)".toList,
    "(?:s|ś|ŝ|ș|ş|š|ſ|ṥ|ṧ)".toList,
    "(?:T|Ţ|Ț|Ť|Ŧ|T)".toList,
    "(?:t|ţ|ț|ť|ŧ|t)".toList,
    "(?:V|V|V)".toList,
    "(?:v|v|v)".toList,
    "(?:W|Ŵ|Ẃ|Ẁ|W)".toList,
    "(?:w|ŵ|ẃ|ẁ|w)".toList,
    "(?:X|X|X|X|X)".toList,
    "(?:x|x|x|x|x)".toList,
    "(?:Z|Ź|Ż|Ž|Z)".toList,
    "(?:z|ź|ż|ž|z)".toList,
    "(?:f|ƒ|f)".toList,
    "(?:Г|Ѓ)".toList,
    "(?:г|ѓ)".toList,
    "(?:К|Ќ)".toList,
    "(?:к|ќ)".toList,
    "(?:B|B|B)".toList,
    "(?:b|b|b)".toList,
    "(?:F|F)".toList,
    "(?:Q|Q|Q)".toList,
    "(?:q|q|q)".toList
  ]

/-- searchRegex (source lines 201-206): for each table group, replace every
match of the group, read as a global regex, by the group text itself,
accumulating over the query string.  Every table entry parses in the
modelled subset, so the none branch is unreachable. -/
def searchRegex (search : Str) : Str :=
  similarCharacters.foldl
    (fun s group =>
      match parsePattern group with
      | some re => replaceAll re s group
      | none => s)
    search

/-- MatchRanking (source lines 208-213): the scorer result tagged union,
one constructor per rank with exactly the payload the source type gives
that rank.  The matches payload is (index, length, closeness), where the
source stores the character spread in index and the matched character
count in length. -/
inductive MatchRanking where
  | noMatch
  | matches (index length : Nat) (closeness : ℚ)
  | acronym (indexes : List Nat)
  | contains (index length : Nat)
  | wordStartsWith (index length : Nat)
  | startsWith (length : Nat)
  | equal
  | caseSensitiveEqual
deriving DecidableEq, Repr

/-- Numeric rank of a MatchRanking value. -/
def MatchRanking.rank : MatchRanking → Int
  | .noMatch => rankings.NO_MATCH
  | .matches _ _ _ => rankings.MATCHES
  | .acronym _ => rankings.ACRONYM
  | .contains _ _ => rankings.CONTAINS
  | .wordStartsWith _ _ => rankings.WORD_STARTS_WITH
  | .startsWith _ => rankings.STARTS_WITH
  | .equal => rankings.EQUAL
  | .caseSensitiveEqual => rankings.CASE_SENSITIVE_EQUAL

/-- Inner loop of findMatchingCharacter over the suffix of the subject
from absolute position j: the first absolute position at or after j whose
character equals c, returned as position+1, or -1 when there is none. -/
def findFromAux (c : Char) : Str → Nat → Int
  | [], _ => -1
  | d :: rest, j => if d == c then (j : Int) + 1 else findFromAux c rest (j + 1)

/-- Inner loop of findMatchingCharacter: first j at or after the given
index with s[j] equal to c, returned as j+1, or -1 when there is none. -/
def findFrom (c : Char) (s : Str) (j : Nat) : Int := findFromAux c (s.drop j) j

/-- findMatchingCharacter (source lines 294-307): the matchChar argument
is string[i], which is undefined past the end of the query, and an
undefined matchChar never compares equal to a subject character. -/
def findMatchingCharacter (matchChar : Option Char) (string : Str) (index : Nat) : Int :=
  match matchChar with
  | some c => findFrom c string index
  | none => -1

/-- The for loop of getClosenessRanking over the query characters after
the first: thread charNumber (resume position) and the running
matchingInOrderCharCount, failing as soon as a character is not found. -/
def closenessLoop (testString : Str) : List Char → Nat → Nat → Option (Nat × Nat)
  | [], charNumber, count => some (charNumber, count)
  | c :: rest, charNumber, count =>
    let r := findMatchingCharacter (some c) testString charNumber
    if r < 0 then none
    else closenessLoop testString rest r.toNat (count + 1)

/-- getClosenessRanking (source lines 288-330).  The closeness formula is
the source's (matchingInOrderCharCount / stringToRank.length) * (1 /
length) over the rationals; for a one-character query the source divides
by zero and JavaScript yields Infinity, which the rational model maps
to 0 - no claim depends on that corner. -/
def getClosenessRanking (testString stringToRank : Str) : MatchRanking :=
  let firstIndex := findMatchingCharacter stringToRank.head? testString 0
  if firstIndex < 0 then .noMatch
  else
    match closenessLoop testString (stringToRank.drop 1) firstIndex.toNat 1 with
    | none => .noMatch
    | some (charNumber, matchingInOrderCharCount) =>
      let length := charNumber - firstIndex.toNat
      .matches length matchingInOrderCharCount
        (((matchingInOrderCharCount : ℚ) / (stringToRank.length : ℚ)) * (1 / (length : ℚ)))

/-- The value an accessor function can produce: a string, an array of
strings, or null/undefined. -/
inductive AccessorValue where
  | null
  | str (s : Str)
  | arr (l : List Str)

/-- Items are modelled as strings: the no-accessor form of rankItem casts
the item to a string unchecked, and every accessor claim instantiates the
item type with a string. -/
abbrev Item := Str

abbrev AccessorFn := Item → AccessorValue

/-- AccessorOptions (source lines 22-27). -/
structure AccessorOptions where
  accessor : AccessorFn
  threshold : Option Int := none
  maxRanking : Option Int := none
  minRanking : Option Int := none

/-- Accessor: a plain function or an options record. -/
inductive Accessor where
  | fn (f : AccessorFn)
  | opts (o : AccessorOptions)

/-- RankItemOptions (source lines 33-37). -/
structure RankItemOptions where
  accessors : Option (List Accessor) := none
  threshold : Option Int := none
  keepDiacritics : Option Bool := none

/-- AccessorAttributes (source lines 8-12) after merging with the
defaults: absent maxRanking is Infinity and absent minRanking is
-Infinity (source lines 400-416). -/
structure AccessorAttributes where
  threshold : Option Int
  maxRanking : JNum
  minRanking : JNum

/-- The acronym pattern (source line 261): for each query character, the
fragment open-paren caret pipe backslash-s pipe dash close-paren, a
capture of the diacritic-expanded character, and a greedy dot-star
capture, all concatenated in query order. -/
def acronymPattern (stringToRank : Str) : Str :=
  stringToRank.foldr
    (fun character acc =>
      "(^|\\s|-)(".toList ++ searchRegex [character] ++ ")(.*)".toList ++ acc)
    []

/-- The acronym index computation (source lines 262-270): walk the
captured groups 1..n in order accumulating their lengths onto
match.index, emitting the running index at every second group of each
triple (arrayIndex + 2 divisible by 3). -/
def acronymIndexes (caps : Caps) : Nat → Nat → Nat → List Nat
  | 0, _, _ => []
  | fuel + 1, arrayIndex, index =>
    (if (arrayIndex + 2) % 3 == 0 then [index] else []) ++
      acronymIndexes caps fuel (arrayIndex + 1) (index + capLen caps (arrayIndex + 1))

/-- getMatchRanking (source lines 222-276): the scoring cascade.  Each
step builds its pattern string exactly as the source does and runs it;
a pattern outside the parsed subset makes RegExp construction throw,
modelled as Except.error, and later steps are only reached (and their
patterns only constructed) when every earlier step failed.  Steps one to
five pass the ignore-case flag as in the source; the acronym regex is
built without flags and so matches case-sensitively. -/
def getMatchRanking (testString stringToRank : Str) (options : RankItemOptions) :
    Except Unit MatchRanking :=
  let searchString :=
    if options.keepDiacritics.getD false then stringToRank else searchRegex stringToRank
  match parsePattern ('^' :: searchString ++ ['$']) with
  | none => .error ()
  | some reEq =>
    if testRe reEq false testString then .ok .caseSensitiveEqual
    else if testRe reEq true testString then .ok .equal
    else
      match parsePattern ('^' :: searchString) with
      | none => .error ()
      | some reStarts =>
        match reExec reStarts true testString 0 with
        | some (ms, me, _) => .ok (.startsWith (me - ms))
        | none =>
          match parsePattern ('\\' :: 's' :: searchString) with
          | none => .error ()
          | some reWord =>
            match reExec reWord true testString 0 with
            | some (ms, me, _) => .ok (.wordStartsWith (ms + 1) (me - ms - 1))
            | none =>
              match parsePattern searchString with
              | none => .error ()
              | some reContains =>
                match reExec reContains true testString 0 with
                | some (ms, me, _) => .ok (.contains ms (me - ms))
                | none =>
                  match parsePattern (acronymPattern stringToRank) with
                  | none => .error ()
                  | some reAcr =>
                    match reExec reAcr false testString 0 with
                    | some (ms, _, caps) =>
                      .ok (.acronym (acronymIndexes caps (3 * stringToRank.length) 0 ms))
                    | none => .ok (getClosenessRanking testString stringToRank)

/-- RankingInfo (source lines 14-20): the rankItem result; the
MatchRanking payload fields are spread into the record in the source and
kept as one field here.  accessorThreshold is always a number at run
time because rankItem defaults options.threshold before using it. -/
structure RankingInfo where
  rankedValue : Str
  ranking : MatchRanking
  accessorIndex : Int
  accessorThreshold : Int
  passed : Bool
deriving DecidableEq, Repr

/-- Rank field of a RankingInfo. -/
def RankingInfo.rank (r : RankingInfo) : Int := r.ranking.rank

/-- getItemValues (source lines 348-370): resolve the accessor function,
apply it, and normalise - null/undefined to no candidates, an array
passed through, a scalar string wrapped as a singleton (String coercion
is the identity on strings). -/
def getItemValues (item : Item) (accessor : Accessor) : List Str :=
  let accessorFn :=
    match accessor with
    | .fn f => f
    | .opts o => o.accessor
  match accessorFn item with
  | .null => []
  | .arr l => l
  | .str s => [s]

/-- getAccessorAttributes (source lines 409-416): a plain function gets
the defaults, a record overrides whichever bounds it sets. -/
def getAccessorAttributes : Accessor → AccessorAttributes
  | .fn _ => { threshold := none, maxRanking := .posInf, minRanking := .negInf }
  | .opts o =>
    { threshold := o.threshold
      maxRanking := match o.maxRanking with | some v => .fin v | none => .posInf
      minRanking := match o.minRanking with | some v => .fin v | none => .negInf }

/-- getAllValuesToRank (source lines 378-398): flatten all accessors, in
order, into (candidate string, attributes) pairs. -/
def getAllValuesToRank (item : Item) (accessors : List Accessor) : List (Str × AccessorAttributes) :=
  accessors.foldr
    (fun accessor acc =>
      (getItemValues item accessor).map (fun v => (v, getAccessorAttributes accessor)) ++ acc)
    []

/-- Closeness comparison from the best-match condition (source line 113):
matchRanking.closeness greater than bestMatchRanking.closeness.  Both
guards of the source condition force both values to be MATCHES records;
on any other shape the JavaScript comparison against undefined is false. -/
def closenessGtB : MatchRanking → MatchRanking → Bool
  | .matches _ _ ca, .matches _ _ cb => decide (cb < ca)
  | _, _ => false

/-- The running state of the rankItem accessor loop (source lines 82-86). -/
structure LoopState where
  bestMatchRanking : MatchRanking
  passed : Bool
  accessorIndex : Int
  accessorThreshold : Int
  rankedValue : Str

/-- The for loop of rankItem (source lines 88-123): score each candidate,
clamp the comparison rank by the accessor bounds, and when the clamped
rank reaches the accessor threshold and beats the running best (or ties
it at MATCHES with a strictly larger closeness), store the original
unclamped matchRanking record together with provenance.  A scorer
exception aborts the whole call. -/
def rankLoop (value : Str) (options : RankItemOptions) :
    List (Str × AccessorAttributes) → Int → LoopState → Except Unit LoopState
  | [], _, st => .ok st
  | (itemValue, attrs) :: rest, i, st =>
    match getMatchRanking itemValue value options with
    | .error e => .error e
    | .ok matchRanking =>
      let minRanking := attrs.minRanking
      let maxRanking := attrs.maxRanking
      let threshold : Int := attrs.threshold.getD (options.threshold.getD rankings.MATCHES)
      let newRank0 : JNum := .fin matchRanking.rank
      let newRank1 :=
        if JNum.ltB newRank0 minRanking && JNum.geB newRank0 (.fin rankings.MATCHES) then
          minRanking
        else if JNum.ltB maxRanking newRank0 then maxRanking
        else newRank0
      let newRank := JNum.minJ newRank1 maxRanking
      if JNum.geB newRank (.fin threshold) &&
          (JNum.ltB (.fin st.bestMatchRanking.rank) newRank ||
            (matchRanking.rank == rankings.MATCHES &&
              st.bestMatchRanking.rank == rankings.MATCHES &&
              closenessGtB matchRanking st.bestMatchRanking)) then
        rankLoop value options rest (i + 1)
          { bestMatchRanking := matchRanking, passed := true, accessorIndex := i,
            accessorThreshold := threshold, rankedValue := itemValue }
      else rankLoop value options rest (i + 1) st

/-- Lines 64-66 of the source: options defaults to a fresh record, and
options.threshold is assigned its default in place - a mutation of the
caller's record when one was passed. -/
def resolveOptions (options? : Option RankItemOptions) : RankItemOptions :=
  let options := options?.getD {}
  { options with threshold := some (options.threshold.getD rankings.MATCHES) }

/-- The options record as the caller observes it after rankItem returns:
rankItem assigns options.threshold on the caller's own object (source
line 66), so the caller sees the resolved record. -/
def optionsAfterRankItem (options : RankItemOptions) : RankItemOptions :=
  resolveOptions (some options)

/-- rankItem (source lines 59-132). -/
def rankItem (item : Item) (value : Str) (options? : Option RankItemOptions) :
    Except Unit RankingInfo :=
  let options := resolveOptions options?
  match options.accessors with
  | none =>
    match getMatchRanking item value options with
    | .error e => .error e
    | .ok matchRanking =>
      .ok { rankedValue := item, ranking := matchRanking, accessorIndex := -1,
            accessorThreshold := options.threshold.getD rankings.MATCHES,
            passed := decide (options.threshold.getD rankings.MATCHES ≤ matchRanking.rank) }
  | some accessors =>
    match rankLoop value options (getAllValuesToRank item accessors) 0
        { bestMatchRanking := .noMatch, passed := false, accessorIndex := -1,
          accessorThreshold := options.threshold.getD rankings.MATCHES,
          rankedValue := item } with
    | .error e => .error e
    | .ok st =>
      .ok { rankedValue := st.rankedValue, ranking := st.bestMatchRanking,
            accessorIndex := st.accessorIndex, accessorThreshold := st.accessorThreshold,
            passed := st.passed }

/-- compareItems (source lines 338-340).  The source guard is rank
equality with MATCHES on both sides, which for the MatchRanking union
holds exactly when both are matches records, the only shape carrying a
closeness; otherwise the comparison is on ranks. -/
def compareItems (a b : RankingInfo) : ℚ :=
  match a.ranking, b.ranking with
  | .matches _ _ ca, .matches _ _ cb => cb - ca
  | ra, rb => (rb.rank : ℚ) - (ra.rank : ℚ)

/-- Worker for findIdxFrom over the suffix from absolute position j. -/
def findIdxFromAux (c : Char) : Str → Nat → Option Nat
  | [], _ => none
  | d :: rest, j => if d == c then some j else findIdxFromAux c rest (j + 1)

/-- Position of the first occurrence of c in s at or after j. -/
def findIdxFrom (c : Char) (s : Str) (j : Nat) : Option Nat :=
  findIdxFromAux c (s.drop j) j

/-- Follows the words of the fuzzy-subsequence contract of the spec
(section 4.3): locate each query character at its first occurrence at or
after the position following the previous match, collecting the matched
positions; none when some character cannot be found. -/
def greedyFrom (t : Str) : List Char → Nat → Option (List Nat)
  | [], _ => some []
  | c :: rest, pos =>
    match findIdxFrom c t pos with
    | none => none
    | some j => (greedyFrom t rest (j + 1)).map (fun l => j :: l)

/-- Matched positions of the greedy left-to-right subsequence embedding
of the whole query, per the spec's fuzzy-matcher description. -/
def greedyMatchIndexes (t q : Str) : Option (List Nat) := greedyFrom t q 0

/-- One past the last matched position, or the resume position when no
further character was matched: the value of charNumber after the
getClosenessRanking loop. -/
def lastStop (pos : Nat) (l : List Nat) : Nat :=
  match l.getLast? with
  | some j => j + 1
  | none => pos

/-- findFromAux computes the successor of the position findIdxFromAux
finds, and -1 when there is none. -/
theorem findFromAux_eq (c : Char) : ∀ (l : Str) (j : Nat),
    findFromAux c l j =
      (match findIdxFromAux c l j with
       | some i => (i : Int) + 1
       | none => -1) := by
  intro l
  induction l with
  | nil => intro j; rfl
  | cons d rest ih =>
    intro j
    rw [findFromAux, findIdxFromAux]
    by_cases hc : (d == c) = true
    · rw [if_pos hc, if_pos hc]
    · rw [if_neg hc, if_neg hc]
      exact ih (j + 1)

/-- findFrom computes the successor of the position findIdxFrom finds,
and -1 when there is none. -/
theorem findFrom_eq (c : Char) (s : Str) : ∀ j : Nat,
    findFrom c s j =
      (match findIdxFrom c s j with
       | some i => (i : Int) + 1
       | none => -1) := by
  intro j
  rw [findFrom, findIdxFrom]
  exact findFromAux_eq c (s.drop j) j

/-- lastStop ignores a fresh head in favour of the tail. -/
theorem lastStop_cons (pos j : Nat) (l : List Nat) :
    lastStop pos (j :: l) = lastStop (j + 1) l := by
  cases l with
  | nil => simp [lastStop]
  | cons x xs =>
    unfold lastStop
    rw [List.getLast?_cons_cons]
    cases hx : (x :: xs).getLast? with
    | none => simp at hx
    | some y => rfl

/-- The getClosenessRanking loop agrees with the greedy subsequence
matcher: it succeeds exactly when the remaining characters embed
greedily, ends at one past the last matched position, and counts one
match per query character. -/
theorem closenessLoop_eq (t : Str) : ∀ (q : List Char) (pos count : Nat),
    closenessLoop t q pos count =
      (greedyFrom t q pos).map (fun l => (lastStop pos l, count + q.length)) := by
  intro q
  induction q with
  | nil => intro pos count; simp [closenessLoop, greedyFrom, lastStop]
  | cons c rest ih =>
    intro pos count
    rw [closenessLoop, greedyFrom]
    rw [findMatchingCharacter, findFrom_eq]
    cases hf : findIdxFrom c t pos with
    | none => simp
    | some j =>
      have hnn : ¬ ((j : Int) + 1 < 0) := by omega
      have htn : ((j : Int) + 1).toNat = j + 1 := by omega
      simp only [hnn, if_false, htn, ih (j + 1) (count + 1)]
      cases hg : greedyFrom t rest (j + 1) with
      | none => simp
      | some l =>
        simp [lastStop_cons]
        omega

/-- findIdxFromAux only finds positions at or after its start index. -/
theorem findIdxFromAux_ge (c : Char) : ∀ (l : Str) (j i : Nat),
    findIdxFromAux c l j = some i → j ≤ i := by
  intro l
  induction l with
  | nil => intro j i h; exact absurd h (by simp [findIdxFromAux])
  | cons d rest ih =>
    intro j i h
    rw [findIdxFromAux] at h
    by_cases hc : (d == c) = true
    · rw [if_pos hc] at h
      injection h with h2
      omega
    · rw [if_neg hc] at h
      have := ih (j + 1) i h
      omega

/-- findIdxFrom only finds positions at or after its start index. -/
theorem findIdxFrom_ge (c : Char) (s : Str) : ∀ (j i : Nat),
    findIdxFrom c s j = some i → j ≤ i := by
  intro j i h
  rw [findIdxFrom] at h
  exact findIdxFromAux_ge c (s.drop j) j i h

/-- Every position the greedy matcher records is at or after the start
position of its search. -/
theorem greedyFrom_ge (t : Str) : ∀ (q : List Char) (pos : Nat) (l : List Nat),
    greedyFrom t q pos = some l → ∀ x ∈ l, pos ≤ x := by
  intro q
  induction q with
  | nil =>
    intro pos l h x hx
    rw [greedyFrom] at h
    cases h
    simp at hx
  | cons c rest ih =>
    intro pos l h x hx
    rw [greedyFrom] at h
    cases hf : findIdxFrom c t pos with
    | none => rw [hf] at h; exact absurd h (by simp)
    | some j =>
      rw [hf] at h
      dsimp only at h
      cases hg : greedyFrom t rest (j + 1) with
      | none => rw [hg] at h; exact absurd h (by simp)
      | some l2 =>
        rw [hg] at h
        cases h
        have hj : pos ≤ j := findIdxFrom_ge c t pos j hf
        rcases List.mem_cons.mp hx with rfl | hx2
        · exact hj
        · have := ih (j + 1) l2 hg x hx2
          omega

/-- C4 (amended): for a non-empty query on which the fuzzy fallback
succeeds, the matched positions are those of the greedy left-to-right
subsequence embedding, matchedCharCount equals the query length, and
closeness = matchedCharCount / queryLength / spread where the spread is
the index of the last matched character MINUS the index of the first
matched character (not last+1-first as the claim stated). -/
theorem getClosenessRanking_closeness_formula (t q : Str) (idx len : Nat) (cl : ℚ)
    (hq : q ≠ []) (h : getClosenessRanking t q = .matches idx len cl) :
    ∃ (l : List Nat) (first last : Nat),
      greedyMatchIndexes t q = some l ∧ l.head? = some first ∧ l.getLast? = some last ∧
      first ≤ last ∧ len = q.length ∧ idx = last - first ∧
      cl = (len : ℚ) / (q.length : ℚ) / ((last - first : Nat) : ℚ) := by
  obtain ⟨c, rest, rfl⟩ := List.exists_cons_of_ne_nil hq
  rw [getClosenessRanking] at h
  simp only [List.head?_cons, findMatchingCharacter, List.drop_one, List.tail_cons] at h
  rw [findFrom_eq] at h
  cases hf : findIdxFrom c t 0 with
  | none =>
    rw [hf] at h
    simp at h
  | some j0 =>
    rw [hf] at h
    have hnn : ¬ ((j0 : Int) + 1 < 0) := by omega
    have htn : ((j0 : Int) + 1).toNat = j0 + 1 := by omega
    rw [if_neg hnn, htn, closenessLoop_eq] at h
    cases hg : greedyFrom t rest (j0 + 1) with
    | none =>
      rw [hg] at h
      exact absurd h (by simp)
    | some l =>
      rw [hg] at h
      simp only [Option.map_some'] at h
      have hgm : greedyMatchIndexes t (c :: rest) = some (j0 :: l) := by
        rw [greedyMatchIndexes, greedyFrom, hf]
        dsimp only
        rw [hg]
        rfl
      cases l with
      | nil =>
        refine ⟨[j0], j0, j0, hgm, rfl, rfl, le_rfl, ?_, ?_, ?_⟩
        · cases h
          simp
          omega
        · cases h
          simp [lastStop]
        · cases h
          simp [lastStop, mul_one_div]
      | cons y ys =>
        have hne : (y :: ys) ≠ ([] : List Nat) := by simp
        have hlast : (y :: ys).getLast? = some ((y :: ys).getLast hne) :=
          List.getLast?_eq_getLast_of_ne_nil hne
        have hmem : (y :: ys).getLast hne ∈ (y :: ys) := List.getLast_mem hne
        have hge : j0 + 1 ≤ (y :: ys).getLast hne :=
          greedyFrom_ge t rest (j0 + 1) (y :: ys) hg _ hmem
        have hstop : lastStop (j0 + 1) (y :: ys) = (y :: ys).getLast hne + 1 := by
          rw [lastStop, hlast]
        refine ⟨j0 :: y :: ys, j0, (y :: ys).getLast hne, hgm, rfl, ?_, by omega, ?_, ?_, ?_⟩
        · rw [List.getLast?_cons_cons, hlast]
        · cases h
          simp
          omega
        · cases h
          rw [hstop]
          omega
        · cases h
          rw [hstop, mul_one_div]
          have harith : ((y :: ys).getLast hne + 1 - (j0 + 1) : Nat) =
              (y :: ys).getLast hne - j0 := by omega
          rw [harith]

/-- Evaluation of the fuzzy scorer on testString help and query hp: the
matched positions are 0 (h) and 3 (p), so the source computes spread
4 - 1 = 3 and closeness (2/2) * (1/3) = 1/3. -/
theorem getClosenessRanking_help_hp :
    getClosenessRanking ("help".toList) "hp".toList = .matches 3 2 ((1 : ℚ)/3) := by
  have h1 : findMatchingCharacter ("hp".toList.head?) "help".toList 0 = 1 := by decide
  have h2 : closenessLoop ("help".toList) ("hp".toList.drop 1) (1 : Int).toNat 1 =
      some (4, 2) := by decide
  rw [getClosenessRanking, h1, h2]
  norm_num

/-- C4 (counterexample): on testString help and query hp the code scores
closeness 1/3, but the claim's formula - spread = (index of last matched
char + 1) - (index of first matched char), here (3+1)-0 - gives
2/2/4 = 1/4.  The greedy match positions are 0 and 3. -/
theorem getClosenessRanking_spread_off_by_one_cx :
    getClosenessRanking ("help".toList) "hp".toList = .matches 3 2 ((1 : ℚ)/3) ∧
    greedyMatchIndexes ("help".toList) "hp".toList = some [0, 3] ∧
    ¬ ((1 : ℚ)/3 = (2 : ℚ) / 2 / (((3 : ℚ) + 1) - 0)) := by
  refine ⟨getClosenessRanking_help_hp, by decide, by norm_num⟩

/-- Witness for the amended C4 theorem at testString help, query hp. -/
theorem getClosenessRanking_closeness_formula_witness :
    ∃ (l : List Nat) (first last : Nat),
      greedyMatchIndexes ("help".toList) "hp".toList = some l ∧ l.head? = some first ∧
      l.getLast? = some last ∧ first ≤ last ∧ 2 = "hp".toList.length ∧ 3 = last - first ∧
      ((1 : ℚ)/3) = ((2 : Nat) : ℚ) / (("hp".toList.length : Nat) : ℚ) / ((last - first : Nat) : ℚ) := by
  exact getClosenessRanking_closeness_formula ("help".toList) "hp".toList 3 2 ((1 : ℚ)/3)
    (by decide) getClosenessRanking_help_hp

/-- Definitional unfolding of reExecFrom at positive fuel. -/
theorem reExecFrom_succ (re : RE) (ci : Bool) (fuel p : Nat) (rem : Str) :
    reExecFrom re ci (fuel + 1) p rem =
      (match reMatch ci re p rem [] (fun e _ c => some (e, c)) with
       | some (e, c) => some (p, e, c)
       | none =>
         match rem with
         | [] => none
         | _ :: rem2 => reExecFrom re ci fuel (p + 1) rem2) := rfl

/-- A pattern anchored by caret-dollar fails wherever the search starts
after position zero. -/
theorem reExecFrom_start_stop_pos (ci : Bool) : ∀ (fuel p : Nat) (rem : Str), 1 ≤ p →
    reExecFrom (.seq .start .stop) ci fuel p rem = none := by
  intro fuel
  induction fuel with
  | zero => intro p rem hp; rfl
  | succ fuel ih =>
    intro p rem hp
    have hp0 : (p == 0) = false := by
      simp only [beq_eq_false_iff_ne, ne_eq]
      omega
    rw [reExecFrom_succ]
    simp only [reMatch, hp0, Bool.false_eq_true, if_false]
    cases rem with
    | nil => rfl
    | cons x xs => exact ih (p + 1) xs (by omega)

/-- The caret-dollar pattern never matches a non-empty subject. -/
theorem testRe_start_stop (ci : Bool) (x : Char) (xs : Str) :
    testRe (.seq .start .stop) ci (x :: xs) = false := by
  rw [testRe, reExec]
  simp only [List.length_cons, Nat.sub_zero, List.drop_zero]
  rw [reExecFrom_succ]
  simp only [reMatch, beq_self_eq_true, if_true, List.isEmpty_cons, Bool.false_eq_true, if_false]
  rw [reExecFrom_start_stop_pos ci (xs.length + 1) 1 xs (by omega)]
  rfl

/-- The bare caret pattern matches the empty prefix at position zero of
every subject. -/
theorem reExec_start (ci : Bool) (t : Str) : reExec .start ci t 0 = some (0, 0, []) := by
  rw [reExec]
  simp only [Nat.sub_zero, List.drop_zero]
  rw [show t.length + 1 = t.length + 1 from rfl, reExecFrom_succ]
  simp [reMatch]

/-- C9: scoring the empty query against a non-empty test string falls
through both equality steps (their anchored empty pattern only matches
the empty string) and stops at the starts-with step with a zero-length
match, and against the empty test string the first step already matches,
giving CASE_SENSITIVE_EQUAL; the empty query never reaches the fuzzy
fallback. -/
theorem getMatchRanking_empty_query (t : Str) (h : t ≠ []) :
    getMatchRanking t [] {} = .ok (.startsWith 0) ∧
    getMatchRanking ([] : Str) ([] : Str) {} = .ok .caseSensitiveEqual := by
  refine ⟨?_, by decide⟩
  obtain ⟨x, xs, rfl⟩ := List.exists_cons_of_ne_nil h
  have hsr : (if ({} : RankItemOptions).keepDiacritics.getD false
      then ([] : Str) else searchRegex []) = [] := by decide
  have hp1 : parsePattern ('^' :: ([] : Str) ++ ['$']) = some (.seq .start .stop) := by decide
  have hp3 : parsePattern ('^' :: ([] : Str)) = some .start := by decide
  rw [getMatchRanking]
  simp only [hsr, hp1, hp3, testRe_start_stop, Bool.false_eq_true, if_false,
    reExec_start]

/-- Witness for the C9 theorem at the one-character test string z. -/
theorem getMatchRanking_empty_query_witness :
    getMatchRanking ['z'] [] {} = .ok (.startsWith 0) ∧
    getMatchRanking ([] : Str) ([] : Str) {} = .ok .caseSensitiveEqual :=
  getMatchRanking_empty_query ['z'] (by decide)

/-- A state whose passed flag is still false after the rankItem loop is
the state the loop started from: the loop only ever replaces the state
together with setting passed to true, and passed is never reset. -/
theorem rankLoop_passed_false :
    ∀ (l : List (Str × AccessorAttributes)) (v : Str) (o : RankItemOptions)
      (i : Int) (st st2 : LoopState),
      rankLoop v o l i st = .ok st2 → st2.passed = false → st2 = st := by
  intro l
  induction l with
  | nil =>
    intro v o i st st2 h hp
    rw [rankLoop] at h
    injection h with h2
    exact h2.symm
  | cons hd tl ih =>
    intro v o i st st2 h hp
    obtain ⟨itemValue, attrs⟩ := hd
    rw [rankLoop] at h
    cases hmr : getMatchRanking itemValue v o with
    | error e => rw [hmr] at h; exact absurd h (by simp)
    | ok mr =>
      rw [hmr] at h
      dsimp only at h
      split at h
      all_goals try split at h
      all_goals try split at h
      all_goals
        first
          | exact ih v o (i + 1) st st2 h hp
          | · have h2 := ih v o (i + 1) _ st2 h hp
              rw [h2] at hp
              simp at hp

/-- Through the rankItem loop, passed holds exactly when the stored
accessorIndex is non-negative, provided that invariant holds initially
and the loop counter is non-negative. -/
theorem rankLoop_passed_iff :
    ∀ (l : List (Str × AccessorAttributes)) (v : Str) (o : RankItemOptions)
      (i : Int) (st st2 : LoopState), 0 ≤ i →
      (st.passed = true ↔ 0 ≤ st.accessorIndex) →
      rankLoop v o l i st = .ok st2 → (st2.passed = true ↔ 0 ≤ st2.accessorIndex) := by
  intro l
  induction l with
  | nil =>
    intro v o i st st2 hi hinv h
    rw [rankLoop] at h
    injection h with h2
    rw [← h2]
    exact hinv
  | cons hd tl ih =>
    intro v o i st st2 hi hinv h
    obtain ⟨itemValue, attrs⟩ := hd
    rw [rankLoop] at h
    cases hmr : getMatchRanking itemValue v o with
    | error e => rw [hmr] at h; exact absurd h (by simp)
    | ok mr =>
      rw [hmr] at h
      dsimp only at h
      split at h
      all_goals try split at h
      all_goals try split at h
      all_goals
        first
          | exact ih v o (i + 1) st st2 (by omega) hinv h
          | exact ih v o (i + 1) _ st2 (by omega) (by simpa using hi) h

/-- C6 (amended): in the no-accessor form passed is exactly the
comparison rank at least accessorThreshold; in the accessor form passed
records whether some candidate qualified during the scan, equivalently
whether accessorIndex is non-negative, which is not the same comparison
(see the counterexample). -/
theorem rankItem_passed_characterisation (item value : Str)
    (options? : Option RankItemOptions) (r : RankingInfo)
    (hr : rankItem item value options? = .ok r) :
    ((resolveOptions options?).accessors.isSome = false →
      (r.passed = true ↔ r.accessorThreshold ≤ r.rank)) ∧
    ((resolveOptions options?).accessors.isSome = true →
      (r.passed = true ↔ 0 ≤ r.accessorIndex)) := by
  rw [rankItem] at hr
  cases hacc : (resolveOptions options?).accessors with
  | none =>
    rw [hacc] at hr
    dsimp only at hr
    cases hmr : getMatchRanking item value (resolveOptions options?) with
    | error e => rw [hmr] at hr; exact absurd hr (by simp)
    | ok mr =>
      rw [hmr] at hr
      injection hr with h2
      constructor
      · intro _
        rw [← h2]
        simp [RankingInfo.rank]
      · intro htrue
        simp at htrue
  | some accessors =>
    rw [hacc] at hr
    dsimp only at hr
    cases hloop : rankLoop value (resolveOptions options?)
        (getAllValuesToRank item accessors) 0
        { bestMatchRanking := .noMatch, passed := false, accessorIndex := -1,
          accessorThreshold := (resolveOptions options?).threshold.getD rankings.MATCHES,
          rankedValue := item } with
    | error e => rw [hloop] at hr; exact absurd hr (by simp)
    | ok st =>
      rw [hloop] at hr
      injection hr with h2
      constructor
      · intro hfalse
        simp at hfalse
      · intro _
        have hiff := rankLoop_passed_iff _ _ _ _ _ _ le_rfl (by simp) hloop
        rw [← h2]
        simpa using hiff

/-- C6 (counterexample): with call threshold NO_MATCH and one accessor
whose candidate does not match, the result has passed false although its
rank (NO_MATCH) is at least the accessorThreshold (NO_MATCH), so
passed = (rank at least accessorThreshold) fails in the accessor form. -/
theorem rankItem_passed_not_threshold_cx :
    ∃ r : RankingInfo,
      rankItem ("it".toList) "q".toList
        (some { accessors := some [.fn (fun _ => .str ("xy".toList))],
                threshold := some rankings.NO_MATCH }) = .ok r ∧
      r.passed = false ∧ r.accessorThreshold ≤ r.rank := by
  refine ⟨{ rankedValue := "it".toList, ranking := .noMatch, accessorIndex := -1,
            accessorThreshold := 0, passed := false }, by decide, rfl, by decide⟩

/-- Witness for the amended C6 theorem: an accessor-form call whose
single candidate equals the query, so the first accessor qualifies. -/
theorem rankItem_passed_characterisation_witness :
    ({ rankedValue := "qq".toList, ranking := .caseSensitiveEqual, accessorIndex := 0,
       accessorThreshold := 1, passed := true } : RankingInfo).passed = true ↔
      (0 : Int) ≤
        ({ rankedValue := "qq".toList, ranking := .caseSensitiveEqual, accessorIndex := 0,
           accessorThreshold := 1, passed := true } : RankingInfo).accessorIndex :=
  (rankItem_passed_characterisation ("it".toList) "qq".toList
    (some { accessors := some [.fn (fun _ => .str ("qq".toList))] })
    { rankedValue := "qq".toList, ranking := .caseSensitiveEqual, accessorIndex := 0,
      accessorThreshold := 1, passed := true } (by decide)).2 rfl

/-- C10: when an accessor-form call finds no qualifying candidate (passed
is false), the loop state is untouched: rank NO_MATCH, rankedValue the
original item, accessorIndex -1 and accessorThreshold the resolved
call-level threshold (MATCHES when the caller set none). -/
theorem rankItem_no_qualifier_defaults (item value : Str)
    (options? : Option RankItemOptions) (accessors : List Accessor) (r : RankingInfo)
    (hacc : (resolveOptions options?).accessors = some accessors)
    (_hne : accessors ≠ [])
    (hr : rankItem item value options? = .ok r)
    (hp : r.passed = false) :
    r.ranking = .noMatch ∧ r.rankedValue = item ∧ r.accessorIndex = -1 ∧
      r.accessorThreshold = (resolveOptions options?).threshold.getD rankings.MATCHES := by
  rw [rankItem, hacc] at hr
  dsimp only at hr
  cases hloop : rankLoop value (resolveOptions options?)
      (getAllValuesToRank item accessors) 0
      { bestMatchRanking := .noMatch, passed := false, accessorIndex := -1,
        accessorThreshold := (resolveOptions options?).threshold.getD rankings.MATCHES,
        rankedValue := item } with
  | error e => rw [hloop] at hr; exact absurd hr (by simp)
  | ok st =>
    rw [hloop] at hr
    injection hr with h2
    have hstp : st.passed = false := by rw [← h2] at hp; exact hp
    have hst := rankLoop_passed_false _ _ _ _ _ _ hloop hstp
    rw [← h2, hst]
    exact ⟨rfl, rfl, rfl, rfl⟩

/-- Witness for the C10 theorem: one accessor yielding a candidate that
does not match the query at all, with the default threshold. -/
theorem rankItem_no_qualifier_defaults_witness :
    ({ rankedValue := "it".toList, ranking := .noMatch, accessorIndex := -1,
       accessorThreshold := 1, passed := false } : RankingInfo).ranking = .noMatch ∧
    ({ rankedValue := "it".toList, ranking := .noMatch, accessorIndex := -1,
       accessorThreshold := 1, passed := false } : RankingInfo).rankedValue = "it".toList ∧
    ({ rankedValue := "it".toList, ranking := .noMatch, accessorIndex := -1,
       accessorThreshold := 1, passed := false } : RankingInfo).accessorIndex = -1 ∧
    ({ rankedValue := "it".toList, ranking := .noMatch, accessorIndex := -1,
       accessorThreshold := 1, passed := false } : RankingInfo).accessorThreshold =
      (resolveOptions (some { accessors := some [.fn (fun _ => .str ("zz".toList))] })).threshold.getD
        rankings.MATCHES :=
  rankItem_no_qualifier_defaults ("it".toList) "q".toList
    (some { accessors := some [.fn (fun _ => .str ("zz".toList))] })
    [.fn (fun _ => .str ("zz".toList))]
    { rankedValue := "it".toList, ranking := .noMatch, accessorIndex := -1,
      accessorThreshold := 1, passed := false }
    rfl (by simp) (by decide) rfl

/-- C7 (counterexample): rankItem assigns options.threshold in place
(source line 66), so a caller-supplied options record without a threshold
is observably mutated - after the call its threshold is MATCHES, no
longer absent. -/
theorem rankItem_mutates_options_threshold_cx :
    (optionsAfterRankItem { accessors := some [.fn (fun item => .str item)] }).threshold =
      some rankings.MATCHES ∧
    ({ accessors := some [.fn (fun item => .str item)] } : RankItemOptions).threshold = none ∧
    some rankings.MATCHES ≠ (none : Option Int) :=
  ⟨rfl, rfl, by simp⟩

/-- C7 (amended): rankItem does not mutate the item or the accessor list,
and the only observable effect on the caller's options record is the
threshold defaulting of source line 66: accessors and keepDiacritics are
unchanged, threshold becomes its old value when present and MATCHES when
absent, and a record whose threshold was set is unchanged entirely. -/
theorem rankItem_options_mutation_only_threshold (o : RankItemOptions) :
    (optionsAfterRankItem o).accessors = o.accessors ∧
    (optionsAfterRankItem o).keepDiacritics = o.keepDiacritics ∧
    (optionsAfterRankItem o).threshold = some (o.threshold.getD rankings.MATCHES) ∧
    (∀ t : Int, o.threshold = some t → optionsAfterRankItem o = o) := by
  refine ⟨rfl, rfl, rfl, ?_⟩
  intro t ht
  obtain ⟨acc, th, kd⟩ := o
  rw [optionsAfterRankItem, resolveOptions]
  simp only at ht
  simp [ht]

/-- Witness for the amended C7 theorem at a record with threshold set. -/
theorem rankItem_options_mutation_only_threshold_witness :
    optionsAfterRankItem { threshold := some 3 } = ({ threshold := some 3 } : RankItemOptions) :=
  (rankItem_options_mutation_only_threshold { threshold := some 3 }).2.2.2 3 rfl

/-- C8: compareItems is antisymmetric and zero on equal arguments; when
both arguments are MATCHES-tier records it is the closeness difference
(descending closeness), otherwise the rank difference (descending
rank). -/
theorem compareItems_antisym_refl_order (a b : RankingInfo) :
    compareItems a b = -compareItems b a ∧ compareItems a a = 0 ∧
    (∀ ia la ca, a.ranking = .matches ia la ca →
      ∀ ib lb cb, b.ranking = .matches ib lb cb → compareItems a b = cb - ca) ∧
    (¬(a.rank = rankings.MATCHES ∧ b.rank = rankings.MATCHES) →
      compareItems a b = (b.rank : ℚ) - (a.rank : ℚ)) := by
  obtain ⟨va, ra, ia0, ta, pa⟩ := a
  obtain ⟨vb, rb, ib0, tb, pb⟩ := b
  refine ⟨?_, ?_, ?_, ?_⟩
  · cases ra <;> cases rb <;> simp [compareItems]
  · cases ra <;> simp [compareItems]
  · intro ia la ca ha ib lb cb hb
    simp only at ha hb
    subst ha
    subst hb
    simp [compareItems]
  · intro hno
    cases ra <;> cases rb <;>
        simp [compareItems, RankingInfo.rank, MatchRanking.rank, rankings.MATCHES,
          rankings.NO_MATCH, rankings.ACRONYM, rankings.CONTAINS, rankings.WORD_STARTS_WITH,
          rankings.STARTS_WITH, rankings.EQUAL, rankings.CASE_SENSITIVE_EQUAL] at hno ⊢

/-- Witness for the C8 theorem at two MATCHES-tier results with
closeness 1/2 and 1/3. -/
theorem compareItems_antisym_refl_order_witness :
    compareItems
      { rankedValue := ['x'], ranking := .matches 2 2 ((1 : ℚ)/2), accessorIndex := -1,
        accessorThreshold := 1, passed := true }
      { rankedValue := ['y'], ranking := .matches 3 2 ((1 : ℚ)/3), accessorIndex := -1,
        accessorThreshold := 1, passed := true } = (1 : ℚ)/3 - (1 : ℚ)/2 :=
  (compareItems_antisym_refl_order
    { rankedValue := ['x'], ranking := .matches 2 2 ((1 : ℚ)/2), accessorIndex := -1,
      accessorThreshold := 1, passed := true }
    { rankedValue := ['y'], ranking := .matches 3 2 ((1 : ℚ)/3), accessorIndex := -1,
      accessorThreshold := 1, passed := true }).2.2.1 2 2 ((1 : ℚ)/2) rfl 3 2 ((1 : ℚ)/3) rfl

/-- C1: with an accessor clamped by maxRanking CONTAINS and a candidate
equal to the query, the clamped rank gates the threshold comparison but
the returned record is the unclamped one (source line 117), so the rank
field is CASE_SENSITIVE_EQUAL, above the accessor's maxRanking. -/
theorem rankItem_maxRanking_unclamped_cx :
    (rankItem ("it".toList) ("qq".toList)
        (some { accessors :=
                  some [.opts { accessor := fun _ => .str ("qq".toList), maxRanking := some rankings.CONTAINS }] })).toOption.map
      (fun r => (r.rank, r.passed)) = some (rankings.CASE_SENSITIVE_EQUAL, true) ∧
    rankings.CONTAINS < rankings.CASE_SENSITIVE_EQUAL :=
  ⟨by decide, by decide⟩

/-- C2: with an accessor whose minRanking is CONTAINS and a candidate
that only fuzzy-matches, the raised rank is used for the threshold test
but the reported rank is the original MATCHES (source line 117), not
minRanking. -/
theorem rankItem_minRanking_unpromoted_cx :
    (rankItem ("it".toList) ("qq".toList)
        (some { accessors :=
                  some [.opts { accessor := fun _ => .str ("qxq".toList), minRanking := some rankings.CONTAINS }] })).toOption.map
      (fun r => (r.rank, r.passed)) = some (rankings.MATCHES, true) ∧
    rankings.MATCHES < rankings.CONTAINS :=
  ⟨by decide, by decide⟩

/-- C3: scoring the one-character query dollar against itself does not
return CASE_SENSITIVE_EQUAL: the query is embedded unescaped, so the
anchored equality patterns only match the empty string, and the contains
step's pattern (a bare end anchor) makes a zero-width match at index 1,
giving CONTAINS. -/
theorem getMatchRanking_self_dollar_cx :
    getMatchRanking ['$'] ['$'] {} = .ok (.contains 1 0) ∧
    (MatchRanking.contains 1 0).rank ≠ rankings.CASE_SENSITIVE_EQUAL :=
  ⟨by decide, by decide⟩

/-- C5: the acronym regex is built without the ignore-case flag (source
line 261), so on Fred Flintstone the lowercase query ff matches no step -
not even the fuzzy fallback, which compares characters case-sensitively -
and the score is NO_MATCH instead of the claimed ACRONYM. -/
theorem getMatchRanking_acronym_case_sensitive_ff :
    getMatchRanking ("Fred Flintstone".toList) ("ff".toList) {} = .ok .noMatch ∧
    MatchRanking.rank .noMatch ≠ rankings.ACRONYM :=
  ⟨by decide, by decide⟩

end MatchSorter

